import Mathlib

/-!
Verification development for the experiment-event pipeline of the
`cloudflare-example` worker.

The embedding covers:
- the `contains_expected` scorer of `runEval` (src/src/index.ts), including its
  JS optional-chaining / `|| ""` coercions;
- the direct-API pipeline `runExperimentWithDirectAPI` and its helper calls
  `getOrCreateProject`, `createExperiment`, `insertExperimentEvents`,
  `summarizeExperiment` (docs/WHY_EVAL_DOESNT_WORK.md), modelled as pure
  functions over a stubbed remote world, instrumented with a trace of the
  outbound calls they make, in order.

Machine strings are Lean `String`s; JS `String.prototype.toLowerCase` is
modelled by ASCII case folding (all strings involved are ASCII); JS
`String.prototype.includes` is modelled by a positional substring scan.
-/

/-- ASCII case folding of one character, modelling JS `toLowerCase` on the
ASCII range: uppercase letters A-Z are shifted to a-z, everything else is
unchanged. -/
def charToLower (c : Char) : Char :=
  if 65 ≤ c.toNat ∧ c.toNat ≤ 90 then Char.ofNat (c.toNat + 32) else c

/-- String lower-casing, modelling JS `toLowerCase` (ASCII). -/
def toLowerAscii (s : String) : String :=
  ⟨s.data.map charToLower⟩

/-- Substring containment, modelling JS `String.prototype.includes`:
`sub` occurs contiguously somewhere in `s`. -/
def strContains (s sub : String) : Bool :=
  (List.range (s.data.length + 1)).any fun i => sub.data.isPrefixOf (s.data.drop i)

/-- Result of one scoring function: a named numeric score, as produced by the
`scores` callback of `runEval` in src/src/index.ts. -/
structure ScoreResult where
  name : String
  score : Nat
deriving DecidableEq, Repr

/-- Second argument handed to the scorer by the Eval framework: an object
whose `expected` field may be absent (JS `expected?.expected` reads it with
optional chaining). -/
structure ScorerArg where
  expected : Option String
deriving DecidableEq, Repr

/-- The `contains_expected` scorer of `runEval` (src/src/index.ts lines
251-260), with the JS coercions made explicit: a missing (`null`/`undefined`)
`output` is coerced to `""` by `output?.toLowerCase() || ""`, a missing
second argument or missing `expected` field is coerced to `""` by
`expected?.expected?.toLowerCase() || ""`, and the score is 1 when the
lower-cased expected occurs in the lower-cased output, else 0. (JS `||`
also maps the empty string to `""`, which coincides with `Option.getD ""`.) -/
def containsExpectedScorer (output : Option String) (arg : Option ScorerArg) : ScoreResult :=
  let outputLower := (output.map toLowerAscii).getD ""
  let expectedLower := ((arg.bind ScorerArg.expected).map toLowerAscii).getD ""
  { name := "contains_expected",
    score := if strContains outputLower expectedLower then 1 else 0 }

/-- One dataset row: an input/expected pair supplied at session start. -/
structure DatasetRow where
  input : String
  expected : String
deriving DecidableEq, Repr

/-- One chat message of an outbound completion request. -/
structure ChatMessage where
  role : String
  content : String
deriving DecidableEq, Repr

/-- Outbound chat-completion request body, as built by the per-row task
(src/src/index.ts lines 220-240 and the direct-API loop). -/
structure ChatRequest where
  model : String
  messages : List ChatMessage
  temperature : Nat
deriving DecidableEq, Repr

/-- Message of one choice of a completion response; `content` may be null. -/
structure RespMessage where
  content : Option String
deriving DecidableEq, Repr

/-- One choice of a completion response. -/
structure RespChoice where
  message : RespMessage
deriving DecidableEq, Repr

/-- Completion response body: choices plus the metadata fields the pipeline
reads (`model`, and the opaque `usage` blob, kept as an optional string). -/
structure ChatCompletion where
  choices : List RespChoice
  model : String
  usage : Option String
deriving DecidableEq, Repr

/-- Remote Project record, `{ id, name }`. -/
structure BraintrustProject where
  id : String
  name : String
deriving DecidableEq, Repr

/-- Remote Experiment record, `{ id, project_id, name }`. -/
structure BraintrustExperiment where
  id : String
  project_id : String
  name : String
deriving DecidableEq, Repr

/-- Metadata captured into each event: the response's model name and its
opaque usage blob. -/
structure EventMetadata where
  model : String
  usage : Option String
deriving DecidableEq, Repr

/-- A normalized experiment event as built by the direct-API loop. -/
structure ExperimentEvent where
  input : String
  output : String
  expected : String
  scores : List (String × Nat)
  metadata : EventMetadata
deriving DecidableEq, Repr

/-- Response body of the insert-events call, `{ row_ids }`. -/
structure InsertResult where
  row_ids : List String
deriving DecidableEq, Repr

/-- Opaque summary returned by the summarize call. -/
structure Summary where
  payload : String
deriving DecidableEq, Repr

/-- One row of the `results` array returned by the pipeline. -/
structure RowResult where
  input : String
  output : String
  expected : String
  score : Nat
deriving DecidableEq, Repr

/-- An HTTP response from a stubbed remote endpoint: the `ok` flag, the
`statusText`, and the parsed JSON body (read by the code only when `ok`). -/
structure HttpResp (α : Type) where
  ok : Bool
  statusText : String
  body : α
deriving DecidableEq, Repr

/-- The stubbed external world: the OpenAI completion endpoint and the four
Braintrust endpoints, each a deterministic function of the request the code
sends it. -/
structure Remote where
  completion : ChatRequest → HttpResp ChatCompletion
  project : String → HttpResp BraintrustProject
  experiment : String → String → HttpResp BraintrustExperiment
  insert : String → List ExperimentEvent → HttpResp InsertResult
  summarizeResp : String → HttpResp Summary

/-- The error taxonomy of the pipeline; each constructor carries the upstream
`statusText` embedded in the thrown message. -/
inductive PipelineError where
  | upstreamCompletionError (statusText : String)
  | projectCreationError (statusText : String)
  | experimentCreationError (statusText : String)
  | eventInsertError (statusText : String)
  | summarizeError (statusText : String)
deriving DecidableEq, Repr

/-- One observable outbound call of a pipeline run. A completion call is
split into the issue of the request (`completionReq`) and the receipt of its
response (`completionRes`), so that sequencing between rows is observable. -/
inductive PipeAction where
  | completionReq (req : ChatRequest)
  | completionRes (input : String)
  | createProject (name : String)
  | createExperiment (projectId : String) (name : String)
  | insertEvents (experimentId : String) (events : List ExperimentEvent)
  | summarizeCall (experimentId : String)
deriving DecidableEq, Repr

/-- The fixed system instruction sent with every completion request. -/
def systemInstruction : String :=
  "You are a helpful assistant. Answer questions concisely."

/-- The chat-completion request built for one dataset row: the fixed system
instruction, one user message equal to the row's input, temperature 0. -/
def mkChatRequest (input : String) : ChatRequest :=
  { model := "gpt-4o-mini",
    messages := [{ role := "system", content := systemInstruction },
                 { role := "user", content := input }],
    temperature := 0 }

/-- The completion response the remote world gives for one row's input. -/
def rowResp (r : Remote) (input : String) : HttpResp ChatCompletion :=
  r.completion (mkChatRequest input)

/-- Output extraction, `response.choices[0].message.content || ''`. -/
def firstChoiceContent (c : ChatCompletion) : String :=
  ((c.choices.head?).bind fun ch => ch.message.content).getD ""

/-- Inline scoring of the direct-API loop: lower-case both sides, test
containment, score 1 or 0. -/
def scoreOutput (output expected : String) : Nat :=
  if strContains (toLowerAscii output) (toLowerAscii expected) then 1 else 0

/-- The event pushed for one row by the direct-API loop. -/
def rowEvent (row : DatasetRow) (c : ChatCompletion) : ExperimentEvent :=
  { input := row.input,
    output := firstChoiceContent c,
    expected := row.expected,
    scores := [("contains_expected", scoreOutput (firstChoiceContent c) row.expected)],
    metadata := { model := c.model, usage := c.usage } }

/-- The result row pushed for one row by the direct-API loop. -/
def rowResult (row : DatasetRow) (c : ChatCompletion) : RowResult :=
  { input := row.input,
    output := firstChoiceContent c,
    expected := row.expected,
    score := scoreOutput (firstChoiceContent c) row.expected }

/-- The two trace actions of one row's completion call: request issued, then
response received. -/
def rowTrace (row : DatasetRow) : List PipeAction :=
  [PipeAction.completionReq (mkChatRequest row.input), PipeAction.completionRes row.input]

/-- The per-row loop of the pipeline (step 4 of
`runExperimentWithDirectAPI`): for each row in order, call the completion
endpoint, check `ok` (src/src/index.ts lines 242-244: a non-success response
throws `UpstreamCompletionError` with the upstream status text), extract the
output, score it, and collect the event and the result row. -/
def processRows (r : Remote) :
    List DatasetRow → List PipeAction × Except PipelineError (List ExperimentEvent × List RowResult)
  | [] => ([], .ok ([], []))
  | row :: rest =>
    let resp := rowResp r row.input
    if resp.ok then
      match processRows r rest with
      | (tr2, .ok (evs, ress)) =>
          (rowTrace row ++ tr2, .ok (rowEvent row resp.body :: evs, rowResult row resp.body :: ress))
      | (tr2, .error e) => (rowTrace row ++ tr2, .error e)
    else
      (rowTrace row, .error (.upstreamCompletionError resp.statusText))

/-- The `getOrCreateProject` helper: POST `/v1/project` with `{ name }`, throw
`ProjectCreationError` on non-success, else return the Project record. -/
def getOrCreateProject (r : Remote) (projectName : String) :
    List PipeAction × Except PipelineError BraintrustProject :=
  let resp := r.project projectName
  ([PipeAction.createProject projectName],
    if resp.ok then .ok resp.body else .error (.projectCreationError resp.statusText))

/-- The `createExperiment` helper: POST `/v1/experiment` with
`{ project_id, name }`, throw `ExperimentCreationError` on non-success. -/
def createExperiment (r : Remote) (projectId experimentName : String) :
    List PipeAction × Except PipelineError BraintrustExperiment :=
  let resp := r.experiment projectId experimentName
  ([PipeAction.createExperiment projectId experimentName],
    if resp.ok then .ok resp.body else .error (.experimentCreationError resp.statusText))

/-- The `insertExperimentEvents` helper: POST
`/v1/experiment/{id}/insert` with `{ events }`, throw `EventInsertError` on
non-success, else return `{ row_ids }`. -/
def insertExperimentEvents (r : Remote) (experimentId : String) (events : List ExperimentEvent) :
    List PipeAction × Except PipelineError InsertResult :=
  let resp := r.insert experimentId events
  ([PipeAction.insertEvents experimentId events],
    if resp.ok then .ok resp.body else .error (.eventInsertError resp.statusText))

/-- The `summarizeExperiment` helper: GET `/v1/experiment/{id}/summarize`,
throw `SummarizeError` on non-success. -/
def summarizeExperiment (r : Remote) (experimentId : String) :
    List PipeAction × Except PipelineError Summary :=
  let resp := r.summarizeResp experimentId
  ([PipeAction.summarizeCall experimentId],
    if resp.ok then .ok resp.body else .error (.summarizeError resp.statusText))

/-- The project name hard-coded in `runExperimentWithDirectAPI`. -/
def directApiProjectName : String := "cloudflare-worker-direct-api"

/-- Full return object of a successful pipeline run. -/
structure RunResult where
  project : BraintrustProject
  experiment : BraintrustExperiment
  results : List RowResult
  insertResult : InsertResult
  summary : Summary
  experimentUrl : String
deriving DecidableEq, Repr

/-- The direct-API pipeline `runExperimentWithDirectAPI`: resolve the
project, create the experiment (its name carries a timestamp suffix in the
source, so it is a parameter here), run the per-row loop, insert all events
in one call, then summarize. Each thrown error aborts the remaining steps and
propagates; the trace lists the outbound calls made before the abort. The
dataset is the caller-supplied row list (the source inlines a fixed
three-row dataset, `defaultDataset` below). -/
def runExperimentWithDirectAPI (r : Remote) (experimentName : String)
    (dataset : List DatasetRow) : List PipeAction × Except PipelineError RunResult :=
  match getOrCreateProject r directApiProjectName with
  | (t1, .error e) => (t1, .error e)
  | (t1, .ok project) =>
    match createExperiment r project.id experimentName with
    | (t2, .error e) => (t1 ++ t2, .error e)
    | (t2, .ok experiment) =>
      match processRows r dataset with
      | (t3, .error e) => (t1 ++ t2 ++ t3, .error e)
      | (t3, .ok (events, results)) =>
        match insertExperimentEvents r experiment.id events with
        | (t4, .error e) => (t1 ++ t2 ++ t3 ++ t4, .error e)
        | (t4, .ok insertResult) =>
          match summarizeExperiment r experiment.id with
          | (t5, .error e) => (t1 ++ t2 ++ t3 ++ t4 ++ t5, .error e)
          | (t5, .ok summary) =>
            (t1 ++ t2 ++ t3 ++ t4 ++ t5,
             .ok { project := project, experiment := experiment, results := results,
                   insertResult := insertResult, summary := summary,
                   experimentUrl := "https://www.braintrust.dev/app/" ++ project.name
                     ++ "/experiments/" ++ experiment.id })

/-- The three-row dataset inlined in the source. -/
def defaultDataset : List DatasetRow :=
  [{ input := "What is 2+2?", expected := "4" },
   { input := "What is the capital of France?", expected := "Paris" },
   { input := "What color is the sky?", expected := "blue" }]

/-- Test whether an action is the issue of a completion request. -/
def isCompletionReq : PipeAction → Bool
  | .completionReq _ => true
  | _ => false

/-- Test whether an action is the receipt of a completion response. -/
def isCompletionRes : PipeAction → Bool
  | .completionRes _ => true
  | _ => false

/-- Test whether an action belongs to a completion call (issue or receipt). -/
def isCompletionAct (a : PipeAction) : Bool :=
  isCompletionReq a || isCompletionRes a

/-- All events carried by insert-events actions of a trace, in order. -/
def eventsInserted (tr : List PipeAction) : List ExperimentEvent :=
  tr.flatMap fun a =>
    match a with
    | .insertEvents _ evs => evs
    | _ => []

/-- Test whether an action is a summarize call. -/
def isSummarize : PipeAction → Bool
  | .summarizeCall _ => true
  | _ => false

/-- Test whether an action is an insert-events call. -/
def isInsert : PipeAction → Bool
  | .insertEvents _ _ => true
  | _ => false

/-- The Project record the stubbed remote returns for the pipeline's
hard-coded project name. -/
def theProject (r : Remote) : BraintrustProject :=
  (r.project directApiProjectName).body

/-- The Experiment record the stubbed remote returns for the pipeline's
create-experiment call. -/
def theExperiment (r : Remote) (en : String) : BraintrustExperiment :=
  (r.experiment (theProject r).id en).body

/-- The events the loop builds for a dataset, one per row in order. -/
def eventsOf (r : Remote) (ds : List DatasetRow) : List ExperimentEvent :=
  ds.map fun row => rowEvent row (rowResp r row.input).body

/-- The result rows the loop builds for a dataset, one per row in order. -/
def resultsOf (r : Remote) (ds : List DatasetRow) : List RowResult :=
  ds.map fun row => rowResult row (rowResp r row.input).body

/-- The user message of a completion request (the second message), used by
the stubs to key their canned answers. -/
def userContent (req : ChatRequest) : String :=
  (((req.messages.drop 1).head?).map ChatMessage.content).getD ""

/-- Canned completion answers used by the scenario stubs. -/
def stubAnswer (q : String) : String :=
  if q = "What is 2+2?" then "4"
  else if q = "What is the capital of France?" then "Paris"
  else "unknown"

/-- A completion stub that always succeeds and answers from `stubAnswer`. -/
def stubCompletionOk : ChatRequest → HttpResp ChatCompletion := fun req =>
  { ok := true, statusText := "OK",
    body := { choices := [{ message := { content := some (stubAnswer (userContent req)) } }],
              model := "gpt-4o-mini", usage := none } }

/-- A fully successful stubbed remote world: the completion endpoint answers
from `stubAnswer`, the project and experiment endpoints echo the request (the
experiment's `project_id` is the requested one), and the insert endpoint
returns one row id per submitted event. -/
def stubRemote : Remote :=
  { completion := stubCompletionOk,
    project := fun n => { ok := true, statusText := "OK", body := { id := "proj-1", name := n } },
    experiment := fun pid n =>
      { ok := true, statusText := "OK", body := { id := "exp-1", project_id := pid, name := n } },
    insert := fun _ evs =>
      { ok := true, statusText := "OK",
        body := { row_ids := (List.range evs.length).map fun i => "row-" ++ toString i } },
    summarizeResp := fun _ => { ok := true, statusText := "OK", body := { payload := "summary" } } }

/-- Same world as `stubRemote` except the insert-events endpoint answers 500. -/
def stubInsertFail : Remote :=
  { stubRemote with insert := fun _ _ =>
      { ok := false, statusText := "Internal Server Error", body := { row_ids := [] } } }

/-- A failed completion response (HTTP 500). -/
def errCompletion : HttpResp ChatCompletion :=
  { ok := false, statusText := "Internal Server Error",
    body := { choices := [], model := "", usage := none } }

/-- Same world as `stubRemote` except the completion endpoint answers 500 for
the first dataset row's question and succeeds for every other question. -/
def stubFirstRowFails : Remote :=
  { stubRemote with completion := fun req =>
      if userContent req = "What is 2+2?" then errCompletion else stubCompletionOk req }

/-- The two-row dataset of end-to-end scenario A. -/
def dataset2 : List DatasetRow :=
  [{ input := "What is 2+2?", expected := "4" },
   { input := "What is the capital of France?", expected := "Paris" }]

/-- A session that performs `open(projectName)` twice in a row: the combined
trace of the two calls, and the two returned values. -/
def openTwice (r : Remote) (projectName : String) :
    List PipeAction ×
      (Except PipelineError BraintrustProject × Except PipelineError BraintrustProject) :=
  let first := getOrCreateProject r projectName
  let second := getOrCreateProject r projectName
  (first.fst ++ second.fst, (first.snd, second.snd))

/-- Observational statement of unconditional full parallel fan-out over the
completion calls of a trace: from the first received completion response
onwards, no further completion request is issued (all launches happen before
the pipeline starts waiting on completions). -/
def fullFanOutTrace (tr : List PipeAction) : Bool :=
  !((tr.dropWhile fun a => !(isCompletionRes a)).any isCompletionReq)

/-- Fallback value used to read the result out of a run already known to
succeed. -/
def fallbackRunResult : RunResult :=
  { project := { id := "", name := "" },
    experiment := { id := "", project_id := "", name := "" },
    results := [], insertResult := { row_ids := [] },
    summary := { payload := "" }, experimentUrl := "" }

/-- The result object of the scenario-A run against the successful stub. -/
def scenarioAResult : RunResult :=
  ((runExperimentWithDirectAPI stubRemote "exp-direct" dataset2).snd.toOption).getD
    fallbackRunResult

deriving instance DecidableEq for Except

/-- Characterization of `strContains`: it decides the existence of a
decomposition `s = pre ++ sub ++ post`. -/
theorem strContains_iff (s sub : String) :
    strContains s sub = true ↔ ∃ pre post : String, s = pre ++ sub ++ post := by
  unfold strContains
  rw [List.any_eq_true]
  constructor
  · rintro ⟨i, hi, hpref⟩
    rw [ List.isPrefixOf_iff_prefix] at hpref
    obtain ⟨t, ht⟩ := hpref
    refine ⟨⟨s.data.take i⟩, ⟨t⟩, ?_⟩
    have hdata : s.data = (s.data.take i ++ sub.data) ++ t := by
      rw [List.append_assoc, ht, List.take_append_drop]
    calc s = ⟨s.data⟩ := rfl
      _ = ⟨(s.data.take i ++ sub.data) ++ t⟩ := by rw [← hdata]
      _ = (⟨s.data.take i⟩ ++ sub) ++ ⟨t⟩ := rfl
  · rintro ⟨pre, post, hdecomp⟩
    refine ⟨pre.data.length, ?_, ?_⟩
    · rw [List.mem_range]
      have : s.data = pre.data ++ (sub.data ++ post.data) := by
        rw [hdecomp, String.data_append, String.data_append, List.append_assoc]
      rw [this]
      simp only [List.length_append]
      omega
    · rw [ List.isPrefixOf_iff_prefix]
      have : s.data = pre.data ++ (sub.data ++ post.data) := by
        rw [hdecomp, String.data_append, String.data_append, List.append_assoc]
      rw [this, List.drop_left]
      exact ⟨post.data, rfl⟩

/-- The empty string is contained in every string (as JS `includes` returns
`true` for the empty search string). -/
theorem strContains_empty (s : String) : strContains s "" = true := by
  rw [strContains_iff]
  exact ⟨s, "", by simp⟩

/-- When every row's completion response is `ok`, the per-row loop issues the
calls strictly in dataset order (request then response, row by row) and
returns one event and one result row per dataset row. -/
theorem processRows_allOk (r : Remote) (rows : List DatasetRow)
    (h : ∀ row ∈ rows, (rowResp r row.input).ok = true) :
    processRows r rows =
      (rows.flatMap rowTrace,
       .ok (rows.map fun row => rowEvent row (rowResp r row.input).body,
            rows.map fun row => rowResult row (rowResp r row.input).body)) := by
  induction rows with
  | nil => rfl
  | cons row rest ih =>
    have hr : (rowResp r row.input).ok = true := h row (by simp)
    have hrest : ∀ x ∈ rest, (rowResp r x.input).ok = true :=
      fun x hx => h x (List.mem_cons_of_mem _ hx)
    simp [processRows, hr, ih hrest]

/-- If the per-row loop returns successfully, every row's completion response
was `ok`. -/
theorem processRows_ok_allOk (r : Remote) (rows : List DatasetRow)
    {tr : List PipeAction} {evs : List ExperimentEvent} {ress : List RowResult}
    (h : processRows r rows = (tr, .ok (evs, ress))) :
    ∀ row ∈ rows, (rowResp r row.input).ok = true := by
  induction rows generalizing tr evs ress with
  | nil => simp
  | cons row rest ih =>
    intro x hx
    unfold processRows at h
    by_cases hr : (rowResp r row.input).ok = true
    · simp only [hr, if_true] at h
      rcases hrec : processRows r rest with ⟨tr2, res2⟩
      rw [hrec] at h
      cases res2 with
      | ok pair =>
        rcases pair with ⟨evs2, ress2⟩
        simp only at h
        rcases List.mem_cons.mp hx with hx1 | hx2
        · subst hx1; exact hr
        · exact ih hrec x hx2
      | error e => simp at h
    · simp only [Bool.not_eq_true] at hr
      simp [hr] at h

/-- If the per-row loop fails, the error is an `UpstreamCompletionError`
carrying the status text of some row whose completion response was not
`ok`. -/
theorem processRows_error_inv (r : Remote) (rows : List DatasetRow)
    {tr : List PipeAction} {e : PipelineError}
    (h : processRows r rows = (tr, .error e)) :
    ∃ row ∈ rows, (rowResp r row.input).ok = false ∧
      e = .upstreamCompletionError (rowResp r row.input).statusText := by
  induction rows generalizing tr e with
  | nil => simp [processRows] at h
  | cons row rest ih =>
    unfold processRows at h
    by_cases hr : (rowResp r row.input).ok = true
    · simp only [hr, if_true] at h
      rcases hrec : processRows r rest with ⟨tr2, res2⟩
      rw [hrec] at h
      cases res2 with
      | ok pair => rcases pair with ⟨evs2, ress2⟩; simp at h
      | error e2 =>
        simp only [Prod.mk.injEq, Except.error.injEq] at h
        obtain ⟨row2, hmem, hok, heq⟩ := ih hrec
        exact ⟨row2, List.mem_cons_of_mem _ hmem, hok, h.2 ▸ heq⟩
    · simp only [Bool.not_eq_true] at hr
      simp only [hr, Bool.false_eq_true, if_false, Prod.mk.injEq, Except.error.injEq] at h
      exact ⟨row, by simp, hr, h.2.symm⟩

/-- Both actions of one row's completion call are completion call actions. -/
theorem rowTrace_mem (row : DatasetRow) :
    ∀ a ∈ rowTrace row, isCompletionAct a = true := by
  intro a ha
  simp only [rowTrace, List.mem_cons, List.not_mem_nil, or_false] at ha
  rcases ha with rfl | rfl <;> rfl

/-- Every action emitted by the per-row loop is a completion call action. -/
theorem processRows_trace_mem (r : Remote) (rows : List DatasetRow) :
    ∀ a ∈ (processRows r rows).fst, isCompletionAct a = true := by
  induction rows with
  | nil => simp [processRows]
  | cons row rest ih =>
    intro a ha
    unfold processRows at ha
    by_cases hr : (rowResp r row.input).ok = true
    · simp only [hr, if_true] at ha
      rcases hrec : processRows r rest with ⟨tr2, res2⟩
      rw [hrec] at ha
      have htr2 : ∀ b ∈ tr2, isCompletionAct b = true := by
        intro b hb; exact ih b (by rw [hrec]; exact hb)
      cases res2 with
      | ok pair =>
        rcases pair with ⟨evs2, ress2⟩
        simp only [List.mem_append] at ha
        rcases ha with ha | ha
        · exact rowTrace_mem row a ha
        · exact htr2 a ha
      | error e =>
        simp only [List.mem_append] at ha
        rcases ha with ha | ha
        · exact rowTrace_mem row a ha
        · exact htr2 a ha
    · simp only [Bool.not_eq_true] at hr
      simp only [hr, if_false] at ha
      exact rowTrace_mem row a ha

/-- Exhaustive case analysis of one pipeline run: either one of the five
remote interactions fails (and the run stops at the corresponding error with
the trace of the calls made so far), or everything succeeds and the run
returns the full result object. -/
theorem run_cases (r : Remote) (en : String) (ds : List DatasetRow) :
    ((r.project directApiProjectName).ok = false ∧
      runExperimentWithDirectAPI r en ds =
        ([PipeAction.createProject directApiProjectName],
         .error (.projectCreationError (r.project directApiProjectName).statusText))) ∨
    ((r.project directApiProjectName).ok = true ∧
      (r.experiment (theProject r).id en).ok = false ∧
      runExperimentWithDirectAPI r en ds =
        ([PipeAction.createProject directApiProjectName,
          PipeAction.createExperiment (theProject r).id en],
         .error (.experimentCreationError (r.experiment (theProject r).id en).statusText))) ∨
    ((r.project directApiProjectName).ok = true ∧
      (r.experiment (theProject r).id en).ok = true ∧
      (∃ e, (processRows r ds).snd = .error e ∧
        runExperimentWithDirectAPI r en ds =
          (PipeAction.createProject directApiProjectName ::
           PipeAction.createExperiment (theProject r).id en ::
           (processRows r ds).fst, .error e))) ∨
    ((r.project directApiProjectName).ok = true ∧
      (r.experiment (theProject r).id en).ok = true ∧
      (∀ row ∈ ds, (rowResp r row.input).ok = true) ∧
      (r.insert (theExperiment r en).id (eventsOf r ds)).ok = false ∧
      runExperimentWithDirectAPI r en ds =
        (PipeAction.createProject directApiProjectName ::
         PipeAction.createExperiment (theProject r).id en ::
         (ds.flatMap rowTrace ++
          [PipeAction.insertEvents (theExperiment r en).id (eventsOf r ds)]),
         .error (.eventInsertError
           (r.insert (theExperiment r en).id (eventsOf r ds)).statusText))) ∨
    ((r.project directApiProjectName).ok = true ∧
      (r.experiment (theProject r).id en).ok = true ∧
      (∀ row ∈ ds, (rowResp r row.input).ok = true) ∧
      (r.insert (theExperiment r en).id (eventsOf r ds)).ok = true ∧
      (r.summarizeResp (theExperiment r en).id).ok = false ∧
      runExperimentWithDirectAPI r en ds =
        (PipeAction.createProject directApiProjectName ::
         PipeAction.createExperiment (theProject r).id en ::
         (ds.flatMap rowTrace ++
          [PipeAction.insertEvents (theExperiment r en).id (eventsOf r ds),
           PipeAction.summarizeCall (theExperiment r en).id]),
         .error (.summarizeError (r.summarizeResp (theExperiment r en).id).statusText))) ∨
    ((r.project directApiProjectName).ok = true ∧
      (r.experiment (theProject r).id en).ok = true ∧
      (∀ row ∈ ds, (rowResp r row.input).ok = true) ∧
      (r.insert (theExperiment r en).id (eventsOf r ds)).ok = true ∧
      (r.summarizeResp (theExperiment r en).id).ok = true ∧
      runExperimentWithDirectAPI r en ds =
        (PipeAction.createProject directApiProjectName ::
         PipeAction.createExperiment (theProject r).id en ::
         (ds.flatMap rowTrace ++
          [PipeAction.insertEvents (theExperiment r en).id (eventsOf r ds),
           PipeAction.summarizeCall (theExperiment r en).id]),
         .ok { project := theProject r,
               experiment := theExperiment r en,
               results := resultsOf r ds,
               insertResult := (r.insert (theExperiment r en).id (eventsOf r ds)).body,
               summary := (r.summarizeResp (theExperiment r en).id).body,
               experimentUrl := "https://www.braintrust.dev/app/" ++ (theProject r).name
                 ++ "/experiments/" ++ (theExperiment r en).id })) := by
  by_cases hp : (r.project directApiProjectName).ok = true
  case neg =>
    left
    simp only [Bool.not_eq_true] at hp
    refine ⟨hp, ?_⟩
    unfold runExperimentWithDirectAPI getOrCreateProject
    simp [hp]
  case pos =>
  by_cases he : (r.experiment (theProject r).id en).ok = true
  case neg =>
    right; left
    simp only [Bool.not_eq_true] at he
    refine ⟨hp, he, ?_⟩
    simp only [theProject] at he
    unfold runExperimentWithDirectAPI getOrCreateProject createExperiment
    simp [hp, he, theProject]
  case pos =>
  rcases hpr : processRows r ds with ⟨t3, res3⟩
  cases res3 with
  | error e =>
    right; right; left
    refine ⟨hp, he, e, rfl, ?_⟩
    simp only [theProject] at he
    unfold runExperimentWithDirectAPI getOrCreateProject createExperiment
    simp [hp, he, theProject, hpr]
  | ok pair =>
    rcases pair with ⟨evs, ress⟩
    have hallok : ∀ row ∈ ds, (rowResp r row.input).ok = true :=
      processRows_ok_allOk r ds hpr
    have hfull := processRows_allOk r ds hallok
    rw [hpr] at hfull
    have ht3 : t3 = ds.flatMap rowTrace := by
      have := congrArg Prod.fst hfull; simpa using this
    have hevres : evs = eventsOf r ds ∧ ress = resultsOf r ds := by
      have := congrArg Prod.snd hfull
      simp only [Except.ok.injEq, Prod.mk.injEq] at this
      exact ⟨this.1, this.2⟩
    rcases hevres with ⟨hev, hres⟩
    by_cases hi : (r.insert (theExperiment r en).id (eventsOf r ds)).ok = true
    case neg =>
      right; right; right; left
      simp only [Bool.not_eq_true] at hi
      refine ⟨hp, he, hallok, hi, ?_⟩
      simp only [theProject] at he
      simp only [theExperiment, theProject] at hi
      unfold runExperimentWithDirectAPI getOrCreateProject createExperiment
        insertExperimentEvents
      simp [hp, he, theProject, theExperiment, hpr, ht3, hev, hi]
    case pos =>
    by_cases hs : (r.summarizeResp (theExperiment r en).id).ok = true
    case neg =>
      right; right; right; right; left
      simp only [Bool.not_eq_true] at hs
      refine ⟨hp, he, hallok, hi, hs, ?_⟩
      simp only [theProject] at he
      simp only [theExperiment, theProject] at hi hs
      unfold runExperimentWithDirectAPI getOrCreateProject createExperiment
        insertExperimentEvents summarizeExperiment
      simp [hp, he, theProject, theExperiment, hpr, ht3, hev, hi, hs]
    case pos =>
      right; right; right; right; right
      refine ⟨hp, he, hallok, hi, hs, ?_⟩
      simp only [theProject] at he
      simp only [theExperiment, theProject] at hi hs
      unfold runExperimentWithDirectAPI getOrCreateProject createExperiment
        insertExperimentEvents summarizeExperiment
      simp [hp, he, theProject, theExperiment, hpr, ht3, hev, hres, hi, hs]

/-- Completion call actions are not summarize calls. -/
theorem isSummarize_of_completionAct (a : PipeAction) (h : isCompletionAct a = true) :
    isSummarize a = false := by
  cases a <;> simp_all [isCompletionAct, isCompletionReq, isCompletionRes, isSummarize]

/-- Completion call actions are not insert-events calls. -/
theorem isInsert_of_completionAct (a : PipeAction) (h : isCompletionAct a = true) :
    isInsert a = false := by
  cases a <;> simp_all [isCompletionAct, isCompletionReq, isCompletionRes, isInsert]

/-- Every action of the concatenated per-row traces is a completion call
action. -/
theorem flatMap_rowTrace_mem (ds : List DatasetRow) :
    ∀ a ∈ ds.flatMap rowTrace, isCompletionAct a = true := by
  intro a ha
  rw [List.mem_flatMap] at ha
  obtain ⟨row, _, hmem⟩ := ha
  exact rowTrace_mem row a hmem

/-- An element on which a predicate holds cannot belong to a list on which
the predicate is everywhere false. -/
theorem not_mem_of_all_false {α : Type} {p : α → Bool} {tr : List α} {a : α}
    (htr : ∀ b ∈ tr, p b = false) (ha : p a = true) : a ∉ tr := by
  intro hmem
  rw [htr a hmem] at ha
  exact Bool.false_ne_true ha

/-- Splitting a list of the form `B ++ [x]` at an occurrence of a marked
element: when no element of `B` is marked and `y` is marked, the occurrence
can only be the final `x`. -/
theorem marker_split {α : Type} (p : α → Bool) :
    ∀ (B pre post : List α) (x y : α),
      B ++ [x] = pre ++ y :: post →
      (∀ b ∈ B, p b = false) → p y = true →
      pre = B ∧ y = x ∧ post = [] := by
  intro B
  induction B with
  | nil =>
    intro pre post x y h hB hy
    cases pre with
    | nil =>
      simp only [List.nil_append, List.cons.injEq] at h
      exact ⟨rfl, h.1.symm, h.2.symm⟩
    | cons a pre2 =>
      simp only [List.nil_append, List.cons_append, List.cons.injEq] at h
      exact absurd h.2.symm (List.append_ne_nil_of_right_ne_nil pre2 (List.cons_ne_nil y post))
  | cons b B2 ih =>
    intro pre post x y h hB hy
    cases pre with
    | nil =>
      simp only [List.cons_append, List.nil_append, List.cons.injEq] at h
      have hb := hB b (by simp)
      rw [h.1] at hb
      rw [hb] at hy
      exact absurd hy Bool.false_ne_true
    | cons a pre2 =>
      simp only [List.cons_append, List.cons.injEq] at h
      obtain ⟨hpre, hyx, hpost⟩ :=
        ih pre2 post x y h.2 (fun c hc => hB c (List.mem_cons_of_mem _ hc)) hy
      exact ⟨by rw [← h.1, hpre], hyx, hpost⟩

/-- Every completion request issued by the per-row loop is the canonical
request for one of the dataset rows. -/
theorem processRows_req_mem (r : Remote) (rows : List DatasetRow) :
    ∀ req, PipeAction.completionReq req ∈ (processRows r rows).fst →
      ∃ row ∈ rows, req = mkChatRequest row.input := by
  induction rows with
  | nil => simp [processRows]
  | cons row rest ih =>
    intro req hmem
    unfold processRows at hmem
    by_cases hr : (rowResp r row.input).ok = true
    · simp only [hr, if_true] at hmem
      rcases hrec : processRows r rest with ⟨tr2, res2⟩
      rw [hrec] at hmem
      have htail : ∀ q, PipeAction.completionReq q ∈ tr2 →
          ∃ x ∈ rest, q = mkChatRequest x.input := by
        intro q hq; exact ih q (by rw [hrec]; exact hq)
      have hstep : PipeAction.completionReq req ∈ rowTrace row ++ tr2 →
          ∃ x ∈ row :: rest, req = mkChatRequest x.input := by
        intro hs
        rcases List.mem_append.mp hs with hs | hs
        · simp only [rowTrace, List.mem_cons, List.not_mem_nil, or_false] at hs
          rcases hs with hs | hs
          · exact ⟨row, by simp, by injection hs⟩
          · cases hs
        · obtain ⟨x, hx, hq⟩ := htail req hs
          exact ⟨x, List.mem_cons_of_mem _ hx, hq⟩
      cases res2 with
      | ok pair => rcases pair with ⟨evs2, ress2⟩; exact hstep hmem
      | error e => exact hstep hmem
    · simp only [Bool.not_eq_true] at hr
      simp only [hr, Bool.false_eq_true, if_false] at hmem
      simp only [rowTrace, List.mem_cons, List.not_mem_nil, or_false] at hmem
      rcases hmem with hs | hs
      · exact ⟨row, by simp, by injection hs⟩
      · cases hs

/-- C1: for every pair of strings `(output, expected)` with `expected`
non-empty, the `contains_expected` scorer of `runEval` returns 1 exactly when
the lower-cased expected occurs as a contiguous substring of the lower-cased
output, and returns 0 exactly otherwise. -/
theorem C1_scorer_contains (output expected : String) (hne : expected ≠ "") :
    ((containsExpectedScorer (some output) (some { expected := some expected })).score = 1
      ↔ ∃ pre post : String, toLowerAscii output = pre ++ toLowerAscii expected ++ post)
    ∧ ((containsExpectedScorer (some output) (some { expected := some expected })).score = 0
      ↔ ¬ ∃ pre post : String, toLowerAscii output = pre ++ toLowerAscii expected ++ post) := by
  have hsc : (containsExpectedScorer (some output) (some { expected := some expected })).score
      = if strContains (toLowerAscii output) (toLowerAscii expected) then 1 else 0 := rfl
  rw [hsc]
  by_cases hc : strContains (toLowerAscii output) (toLowerAscii expected) = true
  · rw [if_pos hc]
    constructor
    · exact ⟨fun _ => (strContains_iff _ _).mp hc, fun _ => rfl⟩
    · constructor
      · intro h01; exact absurd h01 one_ne_zero
      · intro hn; exact absurd ((strContains_iff _ _).mp hc) hn
  · rw [if_neg hc]
    have hnex : ¬ ∃ pre post : String, toLowerAscii output = pre ++ toLowerAscii expected ++ post :=
      fun hex => hc ((strContains_iff _ _).mpr hex)
    constructor
    · constructor
      · intro h01; exact absurd h01.symm one_ne_zero
      · intro hex; exact absurd hex hnex
    · exact ⟨fun _ => hnex, fun _ => rfl⟩

/-- Witness for C1 at a concrete input: lower-cased "ELL" occurs inside
lower-cased "Hello", and the scorer indeed returns 1. -/
theorem C1_scorer_contains_witness :
    (containsExpectedScorer (some "Hello") (some { expected := some "ELL" })).score = 1 :=
  (C1_scorer_contains "Hello" "ELL" (by decide)).1.mpr ⟨"h", "o", by decide⟩

/-- C10: the `runEval` scorer is total and defaults missing values: a missing
output is scored exactly as the empty string, and whenever the expected value
is absent (missing argument, missing field) or the empty string, the score is
1 for every output, because the empty search string is contained in every
string. -/
theorem C10_scorer_total_defaults (output : Option String) (arg : Option ScorerArg) :
    containsExpectedScorer none arg = containsExpectedScorer (some "") arg
    ∧ (containsExpectedScorer output none).score = 1
    ∧ (containsExpectedScorer output (some { expected := none })).score = 1
    ∧ (containsExpectedScorer output (some { expected := some "" })).score = 1 := by
  have hlow : toLowerAscii "" = "" := rfl
  refine ⟨rfl, ?_, ?_, ?_⟩ <;>
    simp [containsExpectedScorer, hlow, strContains_empty]

/-- C3 counterexample: in scenario A (two-row dataset, stub answers "4" and
"Paris"), the two inserted events carry no score named `correctness` at all —
the score name used by the code is `contains_expected`. -/
theorem C3_counterexample :
    (eventsInserted (runExperimentWithDirectAPI stubRemote "exp-direct" dataset2).fst).map
      (fun e => List.lookup "correctness" e.scores) = [none, none] := by
  decide

/-- C3 (amended): in scenario A the pipeline builds exactly two events, both
carrying score 1 under the score name `contains_expected`, and the insert
call returns exactly 2 row ids. -/
theorem C3_amended_scenarioA :
    (eventsInserted (runExperimentWithDirectAPI stubRemote "exp-direct" dataset2).fst).map
      (fun e => List.lookup "contains_expected" e.scores) = [some 1, some 1]
    ∧ (eventsInserted (runExperimentWithDirectAPI stubRemote "exp-direct" dataset2).fst).length = 2
    ∧ ((runExperimentWithDirectAPI stubRemote "exp-direct" dataset2).snd.toOption.map
        fun res => res.insertResult.row_ids.length) = some 2 := by
  refine ⟨by decide, by decide, by decide⟩

/-- C4 counterexample: with a remote whose completion endpoint answers 500
for the first row of the two-row dataset and would succeed on the second, the
run raises `UpstreamCompletionError` but the whole batch is aborted: only one
completion request is ever issued (the second row is never processed) and no
events are inserted. -/
theorem C4_counterexample :
    (runExperimentWithDirectAPI stubFirstRowFails "exp-direct" dataset2).snd
      = .error (.upstreamCompletionError "Internal Server Error")
    ∧ ((runExperimentWithDirectAPI stubFirstRowFails "exp-direct" dataset2).fst.filter
        isCompletionReq).length = 1
    ∧ ((runExperimentWithDirectAPI stubFirstRowFails "exp-direct" dataset2).fst.filter
        isInsert) = [] := by
  refine ⟨by decide, by decide, by decide⟩

/-- When the rows before `row` all succeed and `row`'s completion response is
not `ok`, the per-row loop stops at `row`: its trace covers exactly the
earlier rows and the failing row, and it throws `UpstreamCompletionError`
with that row's status text. -/
theorem processRows_first_fail (r : Remote) (ds2 : List DatasetRow) (row : DatasetRow)
    (hfail : (rowResp r row.input).ok = false) :
    ∀ ds1 : List DatasetRow, (∀ x ∈ ds1, (rowResp r x.input).ok = true) →
      processRows r (ds1 ++ row :: ds2)
        = (ds1.flatMap rowTrace ++ rowTrace row,
           .error (.upstreamCompletionError (rowResp r row.input).statusText)) := by
  intro ds1
  induction ds1 with
  | nil =>
    intro _
    show processRows r (row :: ds2) = _
    unfold processRows
    simp [hfail]
  | cons x t ih =>
    intro hok
    have hx : (rowResp r x.input).ok = true := hok x (by simp)
    have ht := ih fun y hy => hok y (List.mem_cons_of_mem _ hy)
    show processRows r (x :: (t ++ row :: ds2)) = _
    unfold processRows
    simp [hx, ht]

/-- The completion requests among the concatenated per-row traces are exactly
the canonical requests of the rows, in dataset order. -/
theorem filter_req_flatMap (ds : List DatasetRow) :
    (ds.flatMap rowTrace).filter isCompletionReq
      = ds.map fun x => PipeAction.completionReq (mkChatRequest x.input) := by
  induction ds with
  | nil => rfl
  | cons x t ih =>
    simp only [List.flatMap_cons, List.filter_append, ih, List.map_cons]
    rfl

/-- C4 (amended): whenever the external completion capability reports a
non-success result for a dataset row — the first failing row, the project and
experiment steps of the run having succeeded — the run fails with an
`UpstreamCompletionError` carrying that row's upstream status description,
and the error propagates to the caller aborting the whole run: the trace
stops at the failing row's completion call, the completion requests issued
are exactly those of the earlier rows and the failing row (subsequent rows
are never processed), and no insert-events call and no summarize call is
ever made in that run. -/
theorem C4_amended_upstream_failure_aborts_run (r : Remote) (en : String)
    (ds1 ds2 : List DatasetRow) (row : DatasetRow)
    (hp : (r.project directApiProjectName).ok = true)
    (he : (r.experiment (theProject r).id en).ok = true)
    (hok1 : ∀ x ∈ ds1, (rowResp r x.input).ok = true)
    (hfail : (rowResp r row.input).ok = false) :
    (runExperimentWithDirectAPI r en (ds1 ++ row :: ds2)).snd
        = .error (.upstreamCompletionError (rowResp r row.input).statusText)
    ∧ (runExperimentWithDirectAPI r en (ds1 ++ row :: ds2)).fst
        = PipeAction.createProject directApiProjectName ::
          PipeAction.createExperiment (theProject r).id en ::
          (ds1.flatMap rowTrace ++ rowTrace row)
    ∧ ((runExperimentWithDirectAPI r en (ds1 ++ row :: ds2)).fst.filter isCompletionReq)
        = ds1.map (fun x => PipeAction.completionReq (mkChatRequest x.input))
          ++ [PipeAction.completionReq (mkChatRequest row.input)]
    ∧ (∀ eid evs, PipeAction.insertEvents eid evs
        ∉ (runExperimentWithDirectAPI r en (ds1 ++ row :: ds2)).fst)
    ∧ (∀ eid, PipeAction.summarizeCall eid
        ∉ (runExperimentWithDirectAPI r en (ds1 ++ row :: ds2)).fst) := by
  have hproc := processRows_first_fail r ds2 row hfail ds1 hok1
  rcases run_cases r en (ds1 ++ row :: ds2) with ⟨hp2, hrun⟩ | ⟨hp2, he2, hrun⟩ |
    ⟨hp2, he2, e, hsnd, hrun⟩ | ⟨hp2, he2, hall, hi, hrun⟩ |
    ⟨hp2, he2, hall, hi, hs, hrun⟩ | ⟨hp2, he2, hall, hi, hs, hrun⟩
  · rw [hp] at hp2; simp at hp2
  · rw [he] at he2; simp at he2
  · rw [hproc] at hsnd
    simp only [Except.error.injEq] at hsnd
    subst hsnd
    refine ⟨?_, ?_, ?_, ?_, ?_⟩
    · rw [hrun]
    · rw [hrun, hproc]
    · rw [hrun, hproc]
      show (PipeAction.createProject directApiProjectName ::
          PipeAction.createExperiment (theProject r).id en ::
          (ds1.flatMap rowTrace ++ rowTrace row)).filter isCompletionReq = _
      simp only [List.filter_cons, List.filter_append, filter_req_flatMap]
      rfl
    · intro eid evs hmem
      rw [hrun, hproc] at hmem
      simp only [List.mem_cons, List.mem_append] at hmem
      rcases hmem with h1 | h1 | h1 | h1
      · simp at h1
      · simp at h1
      · have hact := flatMap_rowTrace_mem ds1 _ h1
        simp [isCompletionAct, isCompletionReq, isCompletionRes] at hact
      · have hact := rowTrace_mem row _ h1
        simp [isCompletionAct, isCompletionReq, isCompletionRes] at hact
    · intro eid hmem
      rw [hrun, hproc] at hmem
      simp only [List.mem_cons, List.mem_append] at hmem
      rcases hmem with h1 | h1 | h1 | h1
      · simp at h1
      · simp at h1
      · have hact := flatMap_rowTrace_mem ds1 _ h1
        simp [isCompletionAct, isCompletionReq, isCompletionRes] at hact
      · have hact := rowTrace_mem row _ h1
        simp [isCompletionAct, isCompletionReq, isCompletionRes] at hact
  · rw [hall row (by simp)] at hfail; simp at hfail
  · rw [hall row (by simp)] at hfail; simp at hfail
  · rw [hall row (by simp)] at hfail; simp at hfail

/-- Witness for C4 (amended) at the concrete failing stub: with the two-row
dataset whose first row fails, the run raises `UpstreamCompletionError` with
the stub's status text and the only completion request issued is the failing
row's — the second row is never processed. -/
theorem C4_amended_witness :
    (runExperimentWithDirectAPI stubFirstRowFails "exp-direct" dataset2).snd
      = .error (.upstreamCompletionError "Internal Server Error")
    ∧ ((runExperimentWithDirectAPI stubFirstRowFails "exp-direct" dataset2).fst.filter
        isCompletionReq)
      = [PipeAction.completionReq (mkChatRequest "What is 2+2?")] := by
  have h := C4_amended_upstream_failure_aborts_run stubFirstRowFails "exp-direct" []
    [{ input := "What is the capital of France?", expected := "Paris" }]
    { input := "What is 2+2?", expected := "4" }
    (by decide) (by decide) (by intro x hx; cases hx) (by decide)
  exact ⟨h.1, h.2.2.1⟩

/-- Elements of a batch trace (create calls, then completion actions, then a
tail) all fail a predicate that fails on the create calls, on completion
actions, and on the tail. -/
theorem trace_all_false (p : PipeAction → Bool) (a1 a2 : PipeAction)
    (mid rest : List PipeAction)
    (h1 : p a1 = false) (h2 : p a2 = false)
    (hmid : ∀ b ∈ mid, isCompletionAct b = true)
    (hcomp : ∀ b, isCompletionAct b = true → p b = false)
    (hrest : ∀ b ∈ rest, p b = false) :
    ∀ b ∈ (a1 :: a2 :: (mid ++ rest)), p b = false := by
  intro b hb
  simp only [List.mem_cons, List.mem_append] at hb
  rcases hb with rfl | rfl | hb | hb
  · exact h1
  · exact h2
  · exact hcomp b (hmid b hb)
  · exact hrest b hb

/-- C2: in every run of the pipeline, a summarize call can only occur after
an insert-events call for the same experiment whose response was successful
(part 1, stated over every decomposition of the trace around a summarize
call); and when the insert response is non-success, the run raises
`EventInsertError` carrying its status text and no summarize call is ever
reached in that run (part 2). -/
theorem C2_summarize_after_successful_record (r : Remote) (en : String)
    (ds : List DatasetRow) :
    (∀ pre post eid,
        (runExperimentWithDirectAPI r en ds).fst
            = pre ++ PipeAction.summarizeCall eid :: post →
        ∃ evs, PipeAction.insertEvents eid evs ∈ pre ∧ (r.insert eid evs).ok = true)
    ∧ (∀ eid evs,
        PipeAction.insertEvents eid evs ∈ (runExperimentWithDirectAPI r en ds).fst →
        (r.insert eid evs).ok = false →
        (runExperimentWithDirectAPI r en ds).snd
            = .error (.eventInsertError (r.insert eid evs).statusText)
          ∧ ∀ eid2, PipeAction.summarizeCall eid2 ∉ (runExperimentWithDirectAPI r en ds).fst) := by
  have hcompsum : ∀ b, isCompletionAct b = true → isSummarize b = false :=
    isSummarize_of_completionAct
  rcases run_cases r en ds with ⟨hp, hrun⟩ | ⟨hp, he, hrun⟩ | ⟨hp, he, e, hsnd, hrun⟩ |
    ⟨hp, he, hall, hi, hrun⟩ | ⟨hp, he, hall, hi, hs, hrun⟩ | ⟨hp, he, hall, hi, hs, hrun⟩
  · -- project creation fails: trace is a single create-project call
    constructor
    · intro pre post eid hfst
      rw [hrun] at hfst
      have hin : PipeAction.summarizeCall eid ∈ pre ++ PipeAction.summarizeCall eid :: post := by
        simp
      rw [← hfst] at hin
      simp at hin
    · intro eid evs hmem hfalse
      rw [hrun] at hmem
      simp at hmem
  · -- experiment creation fails: trace is the two create calls
    constructor
    · intro pre post eid hfst
      rw [hrun] at hfst
      have hin : PipeAction.summarizeCall eid ∈ pre ++ PipeAction.summarizeCall eid :: post := by
        simp
      rw [← hfst] at hin
      simp at hin
    · intro eid evs hmem hfalse
      rw [hrun] at hmem
      simp at hmem
  · -- a completion call fails: create calls then completion actions only
    constructor
    · intro pre post eid hfst
      rw [hrun] at hfst
      have hin : PipeAction.summarizeCall eid ∈ pre ++ PipeAction.summarizeCall eid :: post := by
        simp
      rw [← hfst] at hin
      simp only [List.mem_cons] at hin
      rcases hin with h1 | h1 | h1
      · simp at h1
      · simp at h1
      · have hact := processRows_trace_mem r ds _ h1
        simp [isCompletionAct, isCompletionReq, isCompletionRes] at hact
    · intro eid evs hmem hfalse
      rw [hrun] at hmem
      simp only [List.mem_cons] at hmem
      rcases hmem with h1 | h1 | h1
      · simp at h1
      · simp at h1
      · have hact := processRows_trace_mem r ds _ h1
        simp [isCompletionAct, isCompletionReq, isCompletionRes] at hact
  · -- the insert call fails: trace ends at the insert action, no summarize
    have hnos : ∀ b ∈ (PipeAction.createProject directApiProjectName ::
        PipeAction.createExperiment (theProject r).id en ::
        (ds.flatMap rowTrace ++
         [PipeAction.insertEvents (theExperiment r en).id (eventsOf r ds)])),
        isSummarize b = false := by
      refine trace_all_false _ _ _ _ _ rfl rfl (flatMap_rowTrace_mem ds) hcompsum ?_
      intro b hb
      simp only [List.mem_singleton] at hb
      subst hb; rfl
    constructor
    · intro pre post eid hfst
      rw [hrun] at hfst
      have hin : PipeAction.summarizeCall eid ∈ pre ++ PipeAction.summarizeCall eid :: post := by
        simp
      rw [← hfst] at hin
      have hin2 : PipeAction.summarizeCall eid ∈ (PipeAction.createProject directApiProjectName ::
          PipeAction.createExperiment (theProject r).id en ::
          (ds.flatMap rowTrace ++
           [PipeAction.insertEvents (theExperiment r en).id (eventsOf r ds)])) := hin
      have := hnos _ hin2
      simp [isSummarize] at this
    · intro eid evs hmem hfalse
      rw [hrun] at hmem
      simp only [List.mem_cons, List.mem_append, List.not_mem_nil, or_false,
        List.mem_singleton] at hmem
      rcases hmem with h1 | h1 | h1 | h1
      · simp at h1
      · simp at h1
      · have hact := flatMap_rowTrace_mem ds _ h1
        simp [isCompletionAct, isCompletionReq, isCompletionRes] at hact
      · simp only [PipeAction.insertEvents.injEq] at h1
        rcases h1 with ⟨heid, hevs⟩
        subst heid; subst hevs
        constructor
        · rw [hrun]
        · intro eid2 hmem2
          rw [hrun] at hmem2
          have hin2 : PipeAction.summarizeCall eid2 ∈ (PipeAction.createProject directApiProjectName ::
              PipeAction.createExperiment (theProject r).id en ::
              (ds.flatMap rowTrace ++
               [PipeAction.insertEvents (theExperiment r en).id (eventsOf r ds)])) := hmem2
          have := hnos _ hin2
          simp [isSummarize] at this
  · -- the summarize call fails: the insert succeeded and precedes it
    have hnosB : ∀ b ∈ (PipeAction.createProject directApiProjectName ::
        PipeAction.createExperiment (theProject r).id en ::
        (ds.flatMap rowTrace ++
         [PipeAction.insertEvents (theExperiment r en).id (eventsOf r ds)])),
        isSummarize b = false := by
      refine trace_all_false _ _ _ _ _ rfl rfl (flatMap_rowTrace_mem ds) hcompsum ?_
      intro b hb
      simp only [List.mem_singleton] at hb
      subst hb; rfl
    constructor
    · intro pre post eid hfst
      rw [hrun] at hfst
      have hfst2 : (PipeAction.createProject directApiProjectName ::
          PipeAction.createExperiment (theProject r).id en ::
          (ds.flatMap rowTrace ++
           [PipeAction.insertEvents (theExperiment r en).id (eventsOf r ds)])) ++
          [PipeAction.summarizeCall (theExperiment r en).id]
          = pre ++ PipeAction.summarizeCall eid :: post := by
        rw [← hfst]
        simp
      obtain ⟨hpre, hyx, hpost⟩ := marker_split isSummarize _ pre post _ _ hfst2 hnosB rfl
      simp only [PipeAction.summarizeCall.injEq] at hyx
      refine ⟨eventsOf r ds, ?_, ?_⟩
      · rw [hpre, hyx]
        simp
      · rw [hyx]
        exact hi
    · intro eid evs hmem hfalse
      rw [hrun] at hmem
      simp only [List.mem_cons, List.mem_append, List.mem_cons, List.not_mem_nil, or_false,
        List.mem_singleton] at hmem
      rcases hmem with h1 | h1 | h1 | h1 | h1
      · simp at h1
      · simp at h1
      · have hact := flatMap_rowTrace_mem ds _ h1
        simp [isCompletionAct, isCompletionReq, isCompletionRes] at hact
      · simp only [PipeAction.insertEvents.injEq] at h1
        rcases h1 with ⟨heid, hevs⟩
        subst heid; subst hevs
        rw [hi] at hfalse
        exact absurd hfalse (by simp)
      · simp at h1
  · -- everything succeeds: the insert succeeded and precedes the summarize
    have hnosB : ∀ b ∈ (PipeAction.createProject directApiProjectName ::
        PipeAction.createExperiment (theProject r).id en ::
        (ds.flatMap rowTrace ++
         [PipeAction.insertEvents (theExperiment r en).id (eventsOf r ds)])),
        isSummarize b = false := by
      refine trace_all_false _ _ _ _ _ rfl rfl (flatMap_rowTrace_mem ds) hcompsum ?_
      intro b hb
      simp only [List.mem_singleton] at hb
      subst hb; rfl
    constructor
    · intro pre post eid hfst
      rw [hrun] at hfst
      have hfst2 : (PipeAction.createProject directApiProjectName ::
          PipeAction.createExperiment (theProject r).id en ::
          (ds.flatMap rowTrace ++
           [PipeAction.insertEvents (theExperiment r en).id (eventsOf r ds)])) ++
          [PipeAction.summarizeCall (theExperiment r en).id]
          = pre ++ PipeAction.summarizeCall eid :: post := by
        rw [← hfst]
        simp
      obtain ⟨hpre, hyx, hpost⟩ := marker_split isSummarize _ pre post _ _ hfst2 hnosB rfl
      simp only [PipeAction.summarizeCall.injEq] at hyx
      refine ⟨eventsOf r ds, ?_, ?_⟩
      · rw [hpre, hyx]
        simp
      · rw [hyx]
        exact hi
    · intro eid evs hmem hfalse
      rw [hrun] at hmem
      simp only [List.mem_cons, List.mem_append, List.mem_cons, List.not_mem_nil, or_false,
        List.mem_singleton] at hmem
      rcases hmem with h1 | h1 | h1 | h1 | h1
      · simp at h1
      · simp at h1
      · have hact := flatMap_rowTrace_mem ds _ h1
        simp [isCompletionAct, isCompletionReq, isCompletionRes] at hact
      · simp only [PipeAction.insertEvents.injEq] at h1
        rcases h1 with ⟨heid, hevs⟩
        subst heid; subst hevs
        rw [hi] at hfalse
        exact absurd hfalse (by simp)
      · simp at h1

/-- Witness for C2 at the concrete insert-failing stub: the run raises
`EventInsertError` with the stub's status text and never issues a summarize
call. -/
theorem C2_witness :
    (runExperimentWithDirectAPI stubInsertFail "exp-direct" dataset2).snd
      = .error (.eventInsertError "Internal Server Error")
    ∧ PipeAction.summarizeCall "exp-1"
        ∉ (runExperimentWithDirectAPI stubInsertFail "exp-direct" dataset2).fst := by
  have h := (C2_summarize_after_successful_record stubInsertFail "exp-direct" dataset2).2
    "exp-1" (eventsOf stubInsertFail dataset2) (by decide) (by decide)
  exact ⟨by rw [h.1]; rfl, h.2 "exp-1"⟩

/-- C5: in every completed run, the insert-events call happens exactly once
(it is the unique insert action of the trace, so the same event set is never
submitted twice), it occurs after the two create calls and after all
completion calls, and it submits the whole batch in a single call with
exactly one event per dataset row, in dataset order. -/
theorem C5_single_batch_insert (r : Remote) (en : String) (ds : List DatasetRow)
    (result : RunResult)
    (h : (runExperimentWithDirectAPI r en ds).snd = .ok result) :
    (runExperimentWithDirectAPI r en ds).fst
        = PipeAction.createProject directApiProjectName ::
          PipeAction.createExperiment result.project.id en ::
          (ds.flatMap rowTrace ++
           [PipeAction.insertEvents result.experiment.id (eventsOf r ds),
            PipeAction.summarizeCall result.experiment.id])
    ∧ ((runExperimentWithDirectAPI r en ds).fst.filter isInsert)
        = [PipeAction.insertEvents result.experiment.id (eventsOf r ds)]
    ∧ (eventsOf r ds).length = ds.length
    ∧ (eventsOf r ds).map ExperimentEvent.input = ds.map DatasetRow.input
    ∧ (∀ a ∈ ds.flatMap rowTrace, isCompletionAct a = true) := by
  rcases run_cases r en ds with ⟨hp, hrun⟩ | ⟨hp, he, hrun⟩ | ⟨hp, he, e, hsnd, hrun⟩ |
    ⟨hp, he, hall, hi, hrun⟩ | ⟨hp, he, hall, hi, hs, hrun⟩ | ⟨hp, he, hall, hi, hs, hrun⟩
  · rw [hrun] at h; simp at h
  · rw [hrun] at h; simp at h
  · rw [hrun] at h; simp at h
  · rw [hrun] at h; simp at h
  · rw [hrun] at h; simp at h
  · rw [hrun] at h
    simp only [Except.ok.injEq] at h
    subst h
    have hflat : (ds.flatMap rowTrace).filter isInsert = [] := by
      rw [List.filter_eq_nil_iff]
      intro a ha
      rw [isInsert_of_completionAct a (flatMap_rowTrace_mem ds a ha)]
      simp
    refine ⟨?_, ?_, ?_, ?_, flatMap_rowTrace_mem ds⟩
    · rw [hrun]
    · rw [hrun]
      show (PipeAction.createProject directApiProjectName ::
        PipeAction.createExperiment (theProject r).id en ::
        (ds.flatMap rowTrace ++
         [PipeAction.insertEvents (theExperiment r en).id (eventsOf r ds),
          PipeAction.summarizeCall (theExperiment r en).id])).filter isInsert
        = [PipeAction.insertEvents (theExperiment r en).id (eventsOf r ds)]
      simp [List.filter_cons, List.filter_append, hflat, isInsert]
    · simp [eventsOf]
    · show (ds.map fun row => rowEvent row (rowResp r row.input).body).map ExperimentEvent.input
          = ds.map DatasetRow.input
      rw [List.map_map]
      rfl

/-- Witness for C5 at the successful stub: the scenario-A trace contains
exactly one insert action. -/
theorem C5_witness :
    ((runExperimentWithDirectAPI stubRemote "exp-direct" dataset2).fst.filter isInsert)
      = [PipeAction.insertEvents scenarioAResult.experiment.id (eventsOf stubRemote dataset2)] :=
  (C5_single_batch_insert stubRemote "exp-direct" dataset2 scenarioAResult (by decide)).2.1

/-- C6: `open(projectName)` is idempotent at the session level: a session
calling it twice sends the identical create-project request both times (the
combined trace is two equal create calls carrying only the name), and against
a remote returning the identical record for that name, both calls return the
same Project. -/
theorem C6_open_idempotent (r : Remote) (projectName : String) (p : BraintrustProject)
    (hok : (r.project projectName).ok = true) (hbody : (r.project projectName).body = p) :
    (openTwice r projectName).fst
        = [PipeAction.createProject projectName, PipeAction.createProject projectName]
    ∧ (openTwice r projectName).snd.1 = .ok p
    ∧ (openTwice r projectName).snd.2 = .ok p
    ∧ (openTwice r projectName).snd.1 = (openTwice r projectName).snd.2 := by
  unfold openTwice getOrCreateProject
  simp [hok, hbody]

/-- Witness for C6 at the echoing stub: both calls return the same Project
record. -/
theorem C6_witness :
    (openTwice stubRemote "my-project").snd.1 = .ok { id := "proj-1", name := "my-project" }
    ∧ (openTwice stubRemote "my-project").snd.2 = .ok { id := "proj-1", name := "my-project" } := by
  have h := C6_open_idempotent stubRemote "my-project" { id := "proj-1", name := "my-project" }
    (by decide) (by decide)
  exact ⟨h.2.1, h.2.2.1⟩

/-- C7: in every completed run against a remote that assigns the requested
`project_id` to the created experiment, the experiment belongs to exactly the
project resolved in step 1 of the same session: its `project_id` equals that
project's id, and the create-experiment request of the session indeed carried
that project's id. -/
theorem C7_experiment_belongs_to_resolved_project (r : Remote) (en : String)
    (ds : List DatasetRow) (result : RunResult)
    (hecho : ∀ pid n, ((r.experiment pid n).body).project_id = pid)
    (h : (runExperimentWithDirectAPI r en ds).snd = .ok result) :
    result.experiment.project_id = result.project.id
    ∧ PipeAction.createExperiment result.project.id en
        ∈ (runExperimentWithDirectAPI r en ds).fst := by
  rcases run_cases r en ds with ⟨hp, hrun⟩ | ⟨hp, he, hrun⟩ | ⟨hp, he, e, hsnd, hrun⟩ |
    ⟨hp, he, hall, hi, hrun⟩ | ⟨hp, he, hall, hi, hs, hrun⟩ | ⟨hp, he, hall, hi, hs, hrun⟩
  · rw [hrun] at h; simp at h
  · rw [hrun] at h; simp at h
  · rw [hrun] at h; simp at h
  · rw [hrun] at h; simp at h
  · rw [hrun] at h; simp at h
  · rw [hrun] at h
    simp only [Except.ok.injEq] at h
    subst h
    constructor
    · show (theExperiment r en).project_id = (theProject r).id
      unfold theExperiment
      exact hecho _ en
    · rw [hrun]
      simp

/-- Witness for C7 at the echoing stub: in the scenario-A run the returned
experiment's `project_id` equals the returned project's id. -/
theorem C7_witness :
    scenarioAResult.experiment.project_id = scenarioAResult.project.id :=
  (C7_experiment_belongs_to_resolved_project stubRemote "exp-direct" dataset2 scenarioAResult
    (fun pid n => rfl) (by decide)).1

/-- Every completion request occurring among the per-row traces is the
canonical request of one of the rows. -/
theorem flatMap_req_mem (ds : List DatasetRow) :
    ∀ req, PipeAction.completionReq req ∈ ds.flatMap rowTrace →
      ∃ row ∈ ds, req = mkChatRequest row.input := by
  intro req h
  rw [List.mem_flatMap] at h
  obtain ⟨row, hrow, hmem⟩ := h
  simp only [rowTrace, List.mem_cons, List.not_mem_nil, or_false] at hmem
  rcases hmem with h1 | h1
  · exact ⟨row, hrow, by injection h1⟩
  · simp at h1

/-- C8: every completion request the pipeline issues is a chat-style request
with the fixed system instruction, exactly one user message equal to some
dataset row's input, and temperature 0; and in a completed run, each row's
recorded output is the first choice's message content of the completion
response for that row (coerced to the empty string when null). -/
theorem C8_request_shape (r : Remote) (en : String) (ds : List DatasetRow) :
    (∀ req, PipeAction.completionReq req ∈ (runExperimentWithDirectAPI r en ds).fst →
        ∃ row ∈ ds, req.model = "gpt-4o-mini"
          ∧ req.messages = [{ role := "system", content := systemInstruction },
                            { role := "user", content := row.input }]
          ∧ req.temperature = 0)
    ∧ (∀ result, (runExperimentWithDirectAPI r en ds).snd = .ok result →
        result.results = ds.map fun row =>
          { input := row.input,
            output := firstChoiceContent (rowResp r row.input).body,
            expected := row.expected,
            score := scoreOutput (firstChoiceContent (rowResp r row.input).body) row.expected }) := by
  have hreq : ∀ req row, req = mkChatRequest row.input →
      req.model = "gpt-4o-mini"
        ∧ req.messages = [{ role := "system", content := systemInstruction },
                          { role := "user", content := (row : DatasetRow).input }]
        ∧ req.temperature = 0 := by
    intro req row hr
    subst hr
    exact ⟨rfl, rfl, rfl⟩
  rcases run_cases r en ds with ⟨hp, hrun⟩ | ⟨hp, he, hrun⟩ | ⟨hp, he, e, hsnd, hrun⟩ |
    ⟨hp, he, hall, hi, hrun⟩ | ⟨hp, he, hall, hi, hs, hrun⟩ | ⟨hp, he, hall, hi, hs, hrun⟩
  · constructor
    · intro req hmem
      rw [hrun] at hmem
      simp at hmem
    · intro result h
      rw [hrun] at h; simp at h
  · constructor
    · intro req hmem
      rw [hrun] at hmem
      simp at hmem
    · intro result h
      rw [hrun] at h; simp at h
  · constructor
    · intro req hmem
      rw [hrun] at hmem
      simp only [List.mem_cons] at hmem
      rcases hmem with h1 | h1 | h1
      · simp at h1
      · simp at h1
      · obtain ⟨row, hrow, hr⟩ := processRows_req_mem r ds req h1
        exact ⟨row, hrow, hreq req row hr⟩
    · intro result h
      rw [hrun] at h; simp at h
  · constructor
    · intro req hmem
      rw [hrun] at hmem
      simp only [List.mem_cons, List.mem_append, List.not_mem_nil, or_false,
        List.mem_singleton] at hmem
      rcases hmem with h1 | h1 | h1 | h1
      · simp at h1
      · simp at h1
      · obtain ⟨row, hrow, hr⟩ := flatMap_req_mem ds req h1
        exact ⟨row, hrow, hreq req row hr⟩
      · simp at h1
    · intro result h
      rw [hrun] at h; simp at h
  · constructor
    · intro req hmem
      rw [hrun] at hmem
      simp only [List.mem_cons, List.mem_append, List.not_mem_nil, or_false,
        List.mem_singleton] at hmem
      rcases hmem with h1 | h1 | h1 | h1 | h1
      · simp at h1
      · simp at h1
      · obtain ⟨row, hrow, hr⟩ := flatMap_req_mem ds req h1
        exact ⟨row, hrow, hreq req row hr⟩
      · simp at h1
      · simp at h1
    · intro result h
      rw [hrun] at h; simp at h
  · constructor
    · intro req hmem
      rw [hrun] at hmem
      simp only [List.mem_cons, List.mem_append, List.not_mem_nil, or_false,
        List.mem_singleton] at hmem
      rcases hmem with h1 | h1 | h1 | h1 | h1
      · simp at h1
      · simp at h1
      · obtain ⟨row, hrow, hr⟩ := flatMap_req_mem ds req h1
        exact ⟨row, hrow, hreq req row hr⟩
      · simp at h1
      · simp at h1
    · intro result h
      rw [hrun] at h
      simp only [Except.ok.injEq] at h
      subst h
      simp only [resultsOf, rowResult]

/-- Witness for C8 at a concrete request of the scenario-A run. -/
theorem C8_witness :
    ∃ row ∈ dataset2, (mkChatRequest "What is 2+2?").model = "gpt-4o-mini"
      ∧ (mkChatRequest "What is 2+2?").messages
          = [{ role := "system", content := systemInstruction },
             { role := "user", content := row.input }]
      ∧ (mkChatRequest "What is 2+2?").temperature = 0 :=
  (C8_request_shape stubRemote "exp-direct" dataset2).1 (mkChatRequest "What is 2+2?") (by decide)

/-- C9 counterexample: the scenario-A run is not a full parallel fan-out — a
completion response is received before the next completion request is issued,
so the trace fails the all-launches-before-any-completion property. -/
theorem C9_counterexample :
    fullFanOutTrace (runExperimentWithDirectAPI stubRemote "exp-direct" dataset2).fst = false := by
  decide

/-- C9 (amended): all dataset rows are processed strictly sequentially, in
dataset order: each row's completion response is received before the next
row's completion request is issued, and only after the last row does the
pipeline batch-insert once and then summarize. -/
theorem C9_amended_sequential_processing (r : Remote) (en : String) (ds : List DatasetRow)
    (result : RunResult)
    (h : (runExperimentWithDirectAPI r en ds).snd = .ok result) :
    (runExperimentWithDirectAPI r en ds).fst
      = PipeAction.createProject directApiProjectName ::
        PipeAction.createExperiment result.project.id en ::
        (ds.flatMap (fun row => [PipeAction.completionReq (mkChatRequest row.input),
                                 PipeAction.completionRes row.input]) ++
         [PipeAction.insertEvents result.experiment.id (eventsOf r ds),
          PipeAction.summarizeCall result.experiment.id]) := by
  rcases run_cases r en ds with ⟨hp, hrun⟩ | ⟨hp, he, hrun⟩ | ⟨hp, he, e, hsnd, hrun⟩ |
    ⟨hp, he, hall, hi, hrun⟩ | ⟨hp, he, hall, hi, hs, hrun⟩ | ⟨hp, he, hall, hi, hs, hrun⟩
  · rw [hrun] at h; simp at h
  · rw [hrun] at h; simp at h
  · rw [hrun] at h; simp at h
  · rw [hrun] at h; simp at h
  · rw [hrun] at h; simp at h
  · rw [hrun] at h
    simp only [Except.ok.injEq] at h
    subst h
    rw [hrun]
    rfl

/-- Witness for C9 (amended) at the successful stub: the scenario-A trace is
exactly the sequential interleaving of requests and responses followed by the
single insert and the summarize call. -/
theorem C9_amended_witness :
    (runExperimentWithDirectAPI stubRemote "exp-direct" dataset2).fst
      = PipeAction.createProject directApiProjectName ::
        PipeAction.createExperiment scenarioAResult.project.id "exp-direct" ::
        (dataset2.flatMap (fun row => [PipeAction.completionReq (mkChatRequest row.input),
                                       PipeAction.completionRes row.input]) ++
         [PipeAction.insertEvents scenarioAResult.experiment.id (eventsOf stubRemote dataset2),
          PipeAction.summarizeCall scenarioAResult.experiment.id]) :=
  C9_amended_sequential_processing stubRemote "exp-direct" dataset2 scenarioAResult (by decide)
